import Mathlib

/-!
Verification of the follow-up engine of the Job-Application-Automation
repository.  The engine (src/followup.py), the sheet store client
(src/sheets.py), the due-date policy (src/utils.py) and the mailer retry
policy (src/mailer.py) are shallowly embedded below.

Modelling conventions:
* A spreadsheet cell is the classification of its text: plain text
  (`Cell.str`), a numeral (`Cell.num`, what Python's `int()` accepts), or a
  timestamp-like text (`Cell.date`).
* A timestamp text is the classification of `datetime.fromisoformat`'s
  result on it: unparseable (`DateStr.invalid`, carrying the raw text),
  parseable without timezone (`DateStr.naive`, wall-clock minutes), or
  timezone-aware (`DateStr.aware`, wall-clock minutes plus UTC offset in
  minutes; the absolute instant is `t - off`).
* External collaborators (email validator, attachment resolver, Gmail
  send, bounce heuristic, Sheets API failures, clock, timezone offset
  tables) are fields of an `Env` record; the engine is proved correct for
  every environment.
* Python exceptions are modelled by the `Res` result type whose error
  constructor also carries the state reached when the exception was
  raised, so that frame conditions on aborted runs are statable.
-/

namespace JobFlow

/-- Classification of a timestamp string by `datetime.fromisoformat`. -/
inductive DateStr where
  | invalid (s : String)
  | naive (t : Int)
  | aware (t : Int) (off : Int)
deriving DecidableEq

/-- The raw text of a timestamp string (placeholder renders for parsed ones). -/
def DateStr.text : DateStr → String
  | .invalid s => s
  | .naive t => "naive(" ++ toString t ++ ")"
  | .aware t off => "aware(" ++ toString t ++ "," ++ toString off ++ ")"

/-- A spreadsheet cell, classified by what the Python code observes of its text. -/
inductive Cell where
  | str (s : String)
  | num (n : Int)
  | date (d : DateStr)
deriving DecidableEq

/-- The text content of a cell. -/
def Cell.text : Cell → String
  | .str s => s
  | .num n => toString n
  | .date d => d.text

/-- Python truthiness of a cell's text (empty string is falsy). -/
def cellTruthy : Cell → Bool
  | .str s => !s.isEmpty
  | .num _ => true
  | .date d =>
    match d with
    | .invalid s => !s.isEmpty
    | _ => true

/-- `datetime.fromisoformat` applied to a cell's text. -/
def cellDate : Cell → DateStr
  | .date d => d
  | .str s => .invalid s
  | .num n => .invalid (toString n)

abbrev Row := List Cell

/-- `row[i]`, with the empty string for a cell beyond the row's extent. -/
def getCell (r : Row) (i : Nat) : Cell := r.getD i (.str "")

/-- One row of the Activity_Log sheet (`sheets.py`, `log_activity`). -/
structure LogEntry where
  ts : Cell
  appId : String
  email : String
  action : String
  result : String
  details : String
deriving DecidableEq

/-- The application dict built by `sheets.get_applications_for_followup`. -/
structure App where
  id : Cell
  company : Cell
  email : Cell
  position : Cell
  language : String
  status : Cell
  sent_date : Cell
  followups : Int
  next_followup_date : Cell
  phone : Cell
  website : Cell
  body : Cell
  cv : Cell
  notes : Cell
  ty : Cell
  salary : Cell
  place : Cell
  reference : Cell
deriving DecidableEq

/-- The spreadsheet-backed store: the two application sheets (full sheets,
    header row included, matching the `A:A` / `A2:Q` ranges of the source)
    and the append-only activity log. -/
structure Store where
  en : List Row
  fr : List Row
  activity : List LogEntry
deriving DecidableEq

/-- Python exceptions as observed by the engine (`str(e)` plus the
    `ValueError` distinction used by the retry policy and `process_followups`). -/
inductive Exn where
  | valueError (msg : String)
  | apiError (msg : String)
deriving DecidableEq

/-- `str(e)`. -/
def Exn.msg : Exn → String
  | .valueError m => m
  | .apiError m => m

/-- External calls performed by the engine, recorded as a trace. -/
inductive Event where
  | listCand (lang : String)
  | appendLog (e : LogEntry)
  | updFollowup (id : Cell) (lang : String) (n : Int)
  | updStatus (id : Cell) (lang : String) (s : String)
  | send (toAddr : String) (subject : String) (body : String) (att : String)
  | bounceCheck (msgId : String)
deriving DecidableEq

/-- Store state plus the trace of external calls made so far. -/
structure St where
  store : Store
  events : List Event
deriving DecidableEq

/-- Result of an effectful step: Python exceptions carry the state reached
    when they were raised. -/
inductive Res (α : Type) where
  | ok (a : α) (st : St)
  | err (e : Exn) (st : St)
deriving DecidableEq

/-- The state at the end of a step, aborted or not. -/
def Res.state {α : Type} : Res α → St
  | .ok _ st => st
  | .err _ st => st

/-- Identifier of a store operation, used by the failure oracle. -/
inductive StoreOp where
  | list (lang : String)
  | append (e : LogEntry)
  | updFollowup (id : Cell) (lang : String) (n : Int)
  | updStatus (id : Cell) (lang : String) (s : String)

/-- The external world: collaborator verdicts, API failure oracle, clock and
    timezone offset tables (minutes east of UTC), and follow-up interval. -/
structure Env where
  validEmail : String → Bool
  resolve : String → String → Option String
  send : String → String → String → String → Except Exn (Option String)
  bounce : String → Option String
  storeExn : StoreOp → Option Exn
  nowAbs : Int
  nowOffAct : Int
  cfgTzAt : Int → Int
  actTzAt : Int → Int
  followupDays : Int

/-- Python's `str.strip()`: drop whitespace from both ends. -/
def pyStrip (s : String) : String :=
  String.mk (((s.data.dropWhile Char.isWhitespace).reverse.dropWhile
    Char.isWhitespace).reverse)

/-- `utils.is_followup_due`: parse, localize a naive value in the configured
    reference timezone, and compare with now; unparseable dates are never due. -/
def is_followup_due (env : Env) (d : DateStr) : Bool :=
  match d with
  | .invalid _ => false
  | .naive t => decide (env.nowAbs ≥ t - env.cfgTzAt t)
  | .aware t off => decide (env.nowAbs ≥ t - off)

/-- `utils.calculate_next_followup`: parse the base date (localizing a naive
    one in the active timezone), falling back to now on parse failure, then
    add `days` days (1440 minutes each) of wall-clock time. -/
def calculate_next_followup (env : Env) (d : DateStr) (days : Int) : DateStr :=
  match d with
  | .naive t => .aware (t + days * 1440) (env.actTzAt t)
  | .aware t off => .aware (t + days * 1440) off
  | .invalid _ => .aware (env.nowAbs + env.nowOffAct + days * 1440) env.nowOffAct

/-- `utils.get_current_timestamp`: now in the active timezone, ISO formatted. -/
def get_current_timestamp (env : Env) : Cell :=
  .date (.aware (env.nowAbs + env.nowOffAct) env.nowOffAct)

/-- `sheets._get_sheet_name`: the EN sheet for "en", the FR sheet otherwise. -/
def sheetOf (s : Store) (lang : String) : List Row :=
  if lang = "en" then s.en else s.fr

/-- Replace the rows of the sheet selected by `_get_sheet_name`. -/
def setSheet (s : Store) (lang : String) (rows : List Row) : Store :=
  if lang = "en" then { s with en := rows } else { s with fr := rows }

/-- `row and row[0] == app_id` for one row of column A. -/
def headMatches (r : Row) (id : Cell) : Bool :=
  match r with
  | [] => false
  | c :: _ => c = id

/-- `sheets._find_row_by_id`: first row whose column A equals the id.
    Returns the 0-based list index (the source's 1-based sheet row minus 1). -/
def findRow0 : List Row → Cell → Option Nat
  | [], _ => none
  | r :: rest, id =>
    if headMatches r id then some 0 else (findRow0 rest id).map (· + 1)

/-- Overwrite one cell of a row, padding with empty cells the way the
    Sheets API extends a short row. -/
def setCell : Row → Nat → Cell → Row
  | [], 0, c => [c]
  | [], Nat.succ n, c => Cell.str "" :: setCell [] n c
  | _ :: rest, 0, c => c :: rest
  | x :: rest, Nat.succ n, c => x :: setCell rest n c

/-- Apply an update to the row at a 0-based index. -/
def updRow0 : List Row → Nat → (Row → Row) → List Row
  | [], _, _ => []
  | r :: rest, 0, f => f r :: rest
  | r :: rest, Nat.succ n, f => r :: updRow0 rest n f

/-- `sheets._get_cell_value` at 0-based row index `i` and 0-based column
    `col` (the source passes the 1-based sheet coordinates). -/
def getCellVal0 (rows : List Row) (i : Nat) (col : Nat) : Cell :=
  getCell (rows.getD i []) col

/-- `int(cell_text)`: numerals parse, everything else raises `ValueError`. -/
def cellToIntE : Cell → Except Exn Int
  | .num n => .ok n
  | c => .error (.valueError ("invalid literal for int with base 10: " ++ c.text))

/-- `status in set("Bounced", "Failed", "Frozen")` on a cell's text. -/
def statusExcluded (c : Cell) : Bool :=
  c.text = "Bounced" || c.text = "Failed" || c.text = "Frozen"

/-- The row-scanning loop of `sheets.get_applications_for_followup`: skip
    rows shorter than 8 cells, terminal-excluded statuses, and empty
    next-followup markers; `int(row[6])` may raise on a non-numeral cell. -/
def applications_of_rows (lang : String) : List Row → Except Exn (List App)
  | [] => .ok []
  | row :: rest =>
    if row.length < 8 then applications_of_rows lang rest
    else if statusExcluded (getCell row 4) then applications_of_rows lang rest
    else if !cellTruthy (getCell row 7) then applications_of_rows lang rest
    else
      match (if cellTruthy (getCell row 6) then cellToIntE (getCell row 6) else .ok 0) with
      | .error e => .error e
      | .ok f =>
        match applications_of_rows lang rest with
        | .error e => .error e
        | .ok apps =>
          .ok ({ id := getCell row 0
                 company := getCell row 1
                 email := getCell row 2
                 position := getCell row 3
                 language := lang
                 status := getCell row 4
                 sent_date := getCell row 5
                 followups := f
                 next_followup_date := getCell row 7
                 phone := getCell row 8
                 website := getCell row 9
                 body := getCell row 10
                 cv := getCell row 11
                 notes := getCell row 12
                 ty := getCell row 13
                 salary := getCell row 14
                 place := getCell row 15
                 reference := getCell row 16 } :: apps)

instance {ε α : Type} [DecidableEq ε] [DecidableEq α] : DecidableEq (Except ε α) :=
  fun x y =>
    match x, y with
    | .ok a, .ok b =>
      if h : a = b then .isTrue (by rw [h])
      else .isFalse (by intro hh; cases hh; exact h rfl)
    | .ok _, .error _ => .isFalse (by intro hh; cases hh)
    | .error _, .ok _ => .isFalse (by intro hh; cases hh)
    | .error e, .error f =>
      if h : e = f then .isTrue (by rw [h])
      else .isFalse (by intro hh; cases hh; exact h rfl)

/-- Record an external call in the trace. -/
def recordEvent (st : St) (ev : Event) : St :=
  { st with events := st.events ++ [ev] }

/-- `sheets.get_applications_for_followup`: the `A2:Q` read (which may raise
    at the API) followed by the pure row scan. -/
def get_applications_for_followup (env : Env) (lang : String) (st : St) :
    Res (List App) :=
  let st1 := recordEvent st (.listCand lang)
  match env.storeExn (.list lang) with
  | some e => .err e st1
  | none =>
    match applications_of_rows lang ((sheetOf st1.store lang).drop 1) with
    | .error e => .err e st1
    | .ok apps => .ok apps st1

/-- The Activity_Log row built by `sheets.log_activity`. -/
def mkLogEntry (env : Env) (appId : Cell) (email : String)
    (action result details : String) : LogEntry :=
  { ts := get_current_timestamp env, appId := appId.text, email := email
    action := action, result := result, details := details }

/-- `sheets.log_activity`: append one audit row (the API call may raise). -/
def log_activity (env : Env) (st : St) (appId : Cell) (email : String)
    (action result details : String) : Res Unit :=
  let e := mkLogEntry env appId email action result details
  let st1 := recordEvent st (.appendLog e)
  match env.storeExn (.append e) with
  | some ex => .err ex st1
  | none =>
    .ok () { st1 with store := { st1.store with activity := st1.store.activity ++ [e] } }

/-- The three-cell batch write of `sheets.update_application_followup`:
    column G (index 6) gets the count, H (7) the recomputed date, E (4) the
    "Follow-up Sent" status. -/
def followupWrite (count : Int) (next : DateStr) (r : Row) : Row :=
  setCell (setCell (setCell r 6 (.num count)) 7 (.date next)) 4 (.str "Follow-up Sent")

/-- `sheets.update_application_followup`: locate the row by id (raising
    `ValueError` if absent), re-read the previous next-followup cell fresh
    from the store, recompute the next date from it, and batch-write count,
    date and status. -/
def update_application_followup (env : Env) (st : St) (appId : Cell)
    (lang : String) (count : Int) : Res Unit :=
  let st1 := recordEvent st (.updFollowup appId lang count)
  match env.storeExn (.updFollowup appId lang count) with
  | some ex => .err ex st1
  | none =>
    let rows := sheetOf st1.store lang
    match findRow0 rows appId with
    | none => .err (.valueError ("Application ID " ++ appId.text ++ " not found")) st1
    | some i =>
      let last := getCellVal0 rows i 7
      let next := calculate_next_followup env (cellDate last) env.followupDays
      .ok () { st1 with store := setSheet st1.store lang (updRow0 rows i (followupWrite count next)) }

/-- `sheets.update_application_status`: locate the row by id and overwrite
    column E with the new status. -/
def update_application_status (env : Env) (st : St) (appId : Cell)
    (lang : String) (status : String) : Res Unit :=
  let st1 := recordEvent st (.updStatus appId lang status)
  match env.storeExn (.updStatus appId lang status) with
  | some ex => .err ex st1
  | none =>
    let rows := sheetOf st1.store lang
    match findRow0 rows appId with
    | none => .err (.valueError ("Application ID " ++ appId.text ++ " not found")) st1
    | some i =>
      .ok () { st1 with store := setSheet st1.store lang (updRow0 rows i (fun r => setCell r 4 (.str status))) }

/-- Outcome of the single-record handler (`followup.py`). -/
inductive SResult where
  | sent
  | skipped (error : String)
  | failed (error : String)
deriving DecidableEq

/-- A validation-skip exit of `_process_single_followup`: log the reason and
    report the record as skipped. -/
def skip_with_log (env : Env) (st : St) (app : App)
    (logDetails retErr : String) : Res SResult :=
  match log_activity env st app.id app.email.text "followup_skipped" "failed" logDetails with
  | .err e st1 => .err e st1
  | .ok _ st1 => .ok (.skipped retErr) st1

/-- The body of the `try` block of `_process_single_followup`: send, bump
    the follow-up count, log success, then run the best-effort bounce check
    and, on a detected bounce, override the status and log it. -/
def send_and_update (env : Env) (lang : String) (app : App)
    (subject att : String) (st : St) : Res Unit :=
  let st1 := recordEvent st (.send app.email.text subject app.body.text att)
  match env.send app.email.text subject app.body.text att with
  | .error e => .err e st1
  | .ok msgId =>
    match update_application_followup env st1 app.id lang (app.followups + 1) with
    | .err e st2 => .err e st2
    | .ok _ st2 =>
      match log_activity env st2 app.id app.email.text "followup_sent" "success"
          ("Follow-up #" ++ toString (app.followups + 1) ++ " sent") with
      | .err e st3 => .err e st3
      | .ok _ st3 =>
        match msgId with
        | none => .ok () st3
        | some mid =>
          let st4 := recordEvent st3 (.bounceCheck mid)
          match env.bounce mid with
          | none => .ok () st4
          | some reason =>
            match update_application_status env st4 app.id lang "Bounced" with
            | .err e st5 => .err e st5
            | .ok _ st5 =>
              match log_activity env st5 app.id app.email.text "bounce_detected" "bounced" reason with
              | .err e st6 => .err e st6
              | .ok _ st6 => .ok () st6

/-- The record's subject: the stripped position title, or the literal
    fallback when blank. -/
def subjectOf (app : App) : String :=
  if pyStrip app.position.text = "" then "Follow-up" else pyStrip app.position.text

/-- `FollowupEngine._process_single_followup`: validations in fixed order
    (email format, body, attachment reference, attachment resolution), the
    dry-run early exit, then the guarded send path whose exceptions are
    converted into a FAIL outcome after logging. -/
def process_single_followup (env : Env) (lang : String) (dryRun : Bool)
    (app : App) (st : St) : Res SResult :=
  if app.email.text.isEmpty || !env.validEmail app.email.text then
    skip_with_log env st app "Invalid email address" "Invalid email"
  else if !cellTruthy app.body then
    skip_with_log env st app "Missing email body" "Missing body"
  else if !cellTruthy app.cv then
    skip_with_log env st app "Missing CV filename" "Missing CV"
  else
    match env.resolve lang app.cv.text with
    | none =>
      skip_with_log env st app ("Attachment not found: " ++ app.cv.text)
        ("Attachment not found: " ++ app.cv.text)
    | some att =>
      if dryRun then .ok .sent st
      else
        match send_and_update env lang app (subjectOf app) att st with
        | .ok _ st1 => .ok .sent st1
        | .err e st1 =>
          match log_activity env st1 app.id app.email.text "followup_failed" "failed" e.msg with
          | .err e2 st2 => .err e2 st2
          | .ok _ st2 => .ok (.failed e.msg) st2

/-- The run statistics dict of `process_followups`. -/
structure Stats where
  sent : Nat
  skipped : Nat
  failed : Nat
  errors : List (String × String)
deriving DecidableEq

/-- Fold one handler outcome into the running statistics. -/
def bumpStats (stats : Stats) (app : App) (r : SResult) : Stats :=
  match r with
  | .sent => { stats with sent := stats.sent + 1 }
  | .skipped _ => { stats with skipped := stats.skipped + 1 }
  | .failed msg =>
    { stats with failed := stats.failed + 1
                 errors := stats.errors ++ [(app.email.text, msg)] }

/-- The per-candidate loop of `process_followups`. -/
def process_due_apps (env : Env) (lang : String) (dryRun : Bool) :
    List App → Stats → St → Res Stats
  | [], stats, st => .ok stats st
  | a :: rest, stats, st =>
    match process_single_followup env lang dryRun a st with
    | .err e st1 => .err e st1
    | .ok r st1 => process_due_apps env lang dryRun rest (bumpStats stats a r) st1

/-- One language partition of `process_followups`: list candidates, filter
    the due ones, process them sequentially. -/
def process_partition (env : Env) (dryRun : Bool) (lang : String)
    (stats : Stats) (st : St) : Res Stats :=
  match get_applications_for_followup env lang st with
  | .err e st1 => .err e st1
  | .ok apps st1 =>
    process_due_apps env lang dryRun
      (apps.filter (fun a => is_followup_due env (cellDate a.next_followup_date)))
      stats st1

/-- The partition loop of `process_followups`. -/
def process_languages (env : Env) (dryRun : Bool) :
    List String → Stats → St → Res Stats
  | [], stats, st => .ok stats st
  | l :: ls, stats, st =>
    match process_partition env dryRun l stats st with
    | .err e st1 => .err e st1
    | .ok stats1 st1 => process_languages env dryRun ls stats1 st1

/-- `FollowupEngine.process_followups`: reject an unknown language selector
    with `ValueError`, then process the selected partitions in order. -/
def process_followups (env : Env) (language : String) (dryRun : Bool)
    (st : St) : Res Stats :=
  if language = "en" || language = "fr" || language = "both" then
    process_languages env dryRun
      (if language = "both" then ["en", "fr"] else [language])
      { sent := 0, skipped := 0, failed := 0, errors := [] } st
  else .err (.valueError "language must be en, fr, or both") st

/-!  The mailer retry policy (`mailer.py`, `GmailMailer.send_email` under the
`backoff.on_exception` decorator with `giveup` on `ValueError`). -/

/-- The mailer's external world: attachment existence at resolution time and
    the Gmail `messages.send` outcome of each attempt (attempts numbered). -/
structure MailEnv where
  attachExists : String → Bool
  netSend : Nat → Except String String

/-- The error taxonomy of the Sender: `ValueError` (validation, never
    retried) versus any other exception (transient, retried). -/
inductive MailErr where
  | validation (msg : String)
  | transient (msg : String)
deriving DecidableEq

/-- The `messages.send` network call of attempt `k`; its exceptions are
    non-`ValueError` and therefore transient. -/
def gmail_api_send (menv : MailEnv) (k : Nat) : Except MailErr String :=
  match menv.netSend k with
  | .ok id => .ok id
  | .error m => .error (.transient m)

/-- One invocation of `GmailMailer.send_email`: the four precondition checks
    raise `ValueError` before any network call; otherwise the message is
    sent via the API. -/
def send_email_attempt (menv : MailEnv) (toAddr subject body : String)
    (att : Option String) (k : Nat) : Except MailErr String :=
  if toAddr.isEmpty then .error (.validation "Recipient email is required.")
  else if (pyStrip subject).isEmpty then .error (.validation "Email subject cannot be empty.")
  else if (pyStrip body).isEmpty then .error (.validation "Email body cannot be empty.")
  else
    match att with
    | some p =>
      if menv.attachExists p then gmail_api_send menv k
      else .error (.validation ("Attachment not found: " ++ p))
    | none => gmail_api_send menv k

/-- `backoff.on_exception(backoff.expo, Exception, max_tries, giveup on
    ValueError)`: invoke the function; stop on success or on a validation
    error; retry a transient error while tries remain.  Returns the result
    and the number of invocations made. -/
def send_email_retry (menv : MailEnv) (toAddr subject body : String)
    (att : Option String) : Nat → Nat → Except MailErr String × Nat
  | 0, _ => (.error (.transient "backoff gave no tries"), 0)
  | Nat.succ fuel, k =>
    match send_email_attempt menv toAddr subject body att k with
    | .ok id => (.ok id, 1)
    | .error (.validation m) => (.error (.validation m), 1)
    | .error (.transient m) =>
      if fuel = 0 then (.error (.transient m), 1)
      else
        let r := send_email_retry menv toAddr subject body att fuel (k + 1)
        (r.1, r.2 + 1)

/-- `GmailMailer.send_email` as called by the engine: the retried attempt
    loop starting at attempt 0 with `MAX_RETRIES` tries. -/
def send_email (menv : MailEnv) (maxTries : Nat) (toAddr subject body : String)
    (att : Option String) : Except MailErr String × Nat :=
  send_email_retry menv toAddr subject body att maxTries 0

/-!  Specification-side observation helpers used to state the claims. -/

/-- The wall-clock minutes of a parseable timestamp. -/
def dateWall : DateStr → Option Int
  | .invalid _ => none
  | .naive t => some t
  | .aware t _ => some t

/-- The comparison key of the Due-Date Policy as the spec words it: absent
    for unparseable dates, the absolute instant otherwise, a naive value
    being read in the configured reference timezone. -/
def dateAbsInCfgTz (env : Env) : DateStr → Option Int
  | .invalid _ => none
  | .naive t => some (t - env.cfgTzAt t)
  | .aware t off => some (t - off)

/-- Whether a trace event is a Sender invocation. -/
def isSendEvent : Event → Bool
  | .send _ _ _ _ => true
  | _ => false

/-- Number of Sender invocations in a trace. -/
def sendCount (evs : List Event) : Nat := (evs.filter isSendEvent).length

/-- An activity entry either predates the run or is a validation-skip entry. -/
def entryOldOrSkip (old : List LogEntry) (e : LogEntry) : Bool :=
  decide (e ∈ old) || decide (e.action = "followup_skipped")

/-- Every entry of `new` predates the run or is a validation-skip entry. -/
def activityOnlySkips (old new : List LogEntry) : Bool :=
  new.all (entryOldOrSkip old)

/-- Whether the handler reported the record as sent. -/
def resIsSent : Res SResult → Bool
  | .ok .sent _ => true
  | _ => false

/-- The skip reason of a handler outcome, when it is a skip. -/
def resSkipReason : Res SResult → Option String
  | .ok (.skipped m) _ => some m
  | _ => none

/-- Total number of outcomes in a statistics record. -/
def statsTotal (s : Stats) : Nat := s.sent + s.skipped + s.failed

/-- A run result is a complete statistics object accounting for `n`
    candidates, with one error entry per failure. -/
def resStatsCheck (r : Res Stats) (n : Nat) : Bool :=
  match r with
  | .ok s _ => statsTotal s == n && s.errors.length == s.failed
  | .err _ _ => false

/-- Every returned candidate has a non-excluded status and a non-empty
    next-followup marker (vacuously true for an aborted listing). -/
def appsOkCheck (r : Res (List App)) : Bool :=
  match r with
  | .ok apps _ => apps.all (fun a => !statusExcluded a.status && cellTruthy a.next_followup_date)
  | .err _ _ => true

/-- The mailer result is a validation failure reached in one invocation. -/
def isValidationFailure (r : Except MailErr String × Nat) : Bool :=
  match r with
  | (.error (.validation _), n) => n == 1
  | _ => false

/-- The mailer result is a transient failure surfaced after `n` invocations. -/
def isTransientFailure (r : Except MailErr String × Nat) (n : Nat) : Bool :=
  match r with
  | (.error (.transient _), k) => k == n
  | _ => false

/-- A supplied attachment that does not exist at resolution time. -/
def attachmentMissing (menv : MailEnv) : Option String → Bool
  | some p => !menv.attachExists p
  | none => false

/-- The disjunction of the Sender's precondition violations. -/
def mailPreconditionViolated (menv : MailEnv) (toAddr subject body : String)
    (att : Option String) : Bool :=
  toAddr.isEmpty || (pyStrip subject).isEmpty || (pyStrip body).isEmpty || attachmentMissing menv att

/-- The frame a dry run must respect: application rows untouched, no new
    Sender invocation, and any new activity entry a validation-skip entry. -/
def dryFrame (st st1 : St) : Prop :=
  st1.store.en = st.store.en ∧ st1.store.fr = st.store.fr ∧
  sendCount st1.events = sendCount st.events ∧
  activityOnlySkips st.store.activity st1.store.activity = true

/-!  Concrete fixtures used by the witnesses and counterexamples. -/

/-- A reference environment: one known-good address, one resolvable CV,
    a healthy store, sends succeeding with message id m1 and no bounces. -/
def envW : Env where
  validEmail := fun s => s = "a@b.com"
  resolve := fun _ cv => if cv = "cv.pdf" then some "/att/cv.pdf" else none
  send := fun _ _ _ _ => .ok (some "m1")
  bounce := fun _ => none
  storeExn := fun _ => none
  nowAbs := 1000000
  nowOffAct := 60
  cfgTzAt := fun _ => 60
  actTzAt := fun _ => 60
  followupDays := 7

/-- `envW` with an unreachable EN sheet for the candidate-listing call. -/
def envWListFail : Env :=
  { envW with
    storeExn := fun op =>
      match op with
      | .list l => if l = "en" then some (.apiError "listing unreachable") else none
      | _ => none }

/-- `envW` with the bounce heuristic reporting a bounce for every message. -/
def envWBounce : Env :=
  { envW with bounce := fun _ => some "address unavailable" }

/-- The header row of an applications sheet. -/
def rowHeader : Row :=
  [Cell.str "ID", Cell.str "Company", Cell.str "Email", Cell.str "Position",
   Cell.str "Status", Cell.str "Sent Date", Cell.str "Followups",
   Cell.str "Next Followup Date"]

/-- A due, fully valid EN application row (next follow-up in the past). -/
def rowGood : Row :=
  [Cell.str "id1", Cell.str "ACME", Cell.str "a@b.com", Cell.str "Engineer",
   Cell.str "Sent", Cell.str "", Cell.num 2, Cell.date (.aware 500000 60),
   Cell.str "", Cell.str "", Cell.str "Hello body", Cell.str "cv.pdf"]

/-- A due, fully valid FR application row. -/
def rowGoodFr : Row :=
  [Cell.str "id2", Cell.str "ACME", Cell.str "a@b.com", Cell.str "Ingenieur",
   Cell.str "Sent", Cell.str "", Cell.num 0, Cell.date (.aware 600000 60),
   Cell.str "", Cell.str "", Cell.str "Bonjour", Cell.str "cv.pdf"]

/-- A due row whose email address fails validation. -/
def rowBadEmail : Row :=
  [Cell.str "id9", Cell.str "ACME", Cell.str "bademail", Cell.str "Engineer",
   Cell.str "Sent", Cell.str "", Cell.num 0, Cell.date (.aware 500000 60),
   Cell.str "", Cell.str "", Cell.str "Hello body", Cell.str "cv.pdf"]

/-- The application dict the listing builds from `rowGood`. -/
def appGood : App where
  id := .str "id1"
  company := .str "ACME"
  email := .str "a@b.com"
  position := .str "Engineer"
  language := "en"
  status := .str "Sent"
  sent_date := .str ""
  followups := 2
  next_followup_date := .date (.aware 500000 60)
  phone := .str ""
  website := .str ""
  body := .str "Hello body"
  cv := .str "cv.pdf"
  notes := .str ""
  ty := .str ""
  salary := .str ""
  place := .str ""
  reference := .str ""

/-- The application dict the listing builds from `rowGoodFr`. -/
def appGoodFr : App where
  id := .str "id2"
  company := .str "ACME"
  email := .str "a@b.com"
  position := .str "Ingenieur"
  language := "fr"
  status := .str "Sent"
  sent_date := .str ""
  followups := 0
  next_followup_date := .date (.aware 600000 60)
  phone := .str ""
  website := .str ""
  body := .str "Bonjour"
  cv := .str "cv.pdf"
  notes := .str ""
  ty := .str ""
  salary := .str ""
  place := .str ""
  reference := .str ""

/-- `appGood` with an attachment reference that does not resolve. -/
def appNoAtt : App := { appGood with cv := .str "missing.pdf" }

/-- A store with one valid EN application. -/
def stW : St where
  store := { en := [rowHeader, rowGood], fr := [], activity := [] }
  events := []

/-- A store with one valid application in each partition. -/
def stWBoth : St where
  store := { en := [rowHeader, rowGood], fr := [rowHeader, rowGoodFr], activity := [] }
  events := []

/-- A store whose single due EN application has an invalid email address. -/
def stWBad : St where
  store := { en := [rowHeader, rowBadEmail], fr := [], activity := [] }
  events := []

/-- A mailer environment whose network sends always fail transiently. -/
def menvW : MailEnv where
  attachExists := fun p => p = "/att/cv.pdf"
  netSend := fun _ => .error "503 backend error"

/-!  Helper lemmas about the embedding. -/

@[simp]
lemma res_state_ok {α : Type} (a : α) (st : St) : (Res.ok a st).state = st := rfl

@[simp]
lemma res_state_err {α : Type} (e : Exn) (st : St) : (Res.err e st : Res α).state = st := rfl

@[simp]
lemma recordEvent_store (st : St) (ev : Event) : (recordEvent st ev).store = st.store := rfl

@[simp]
lemma recordEvent_events (st : St) (ev : Event) :
    (recordEvent st ev).events = st.events ++ [ev] := rfl

@[simp]
lemma getCell_nil (i : Nat) : getCell ([] : Row) i = .str "" := by
  cases i <;> rfl

@[simp]
lemma getCell_cons_zero (c : Cell) (r : Row) : getCell (c :: r) 0 = c := rfl

@[simp]
lemma getCell_cons_succ (c : Cell) (r : Row) (n : Nat) :
    getCell (c :: r) (n + 1) = getCell r n := rfl

lemma getCell_setCell : ∀ (r : Row) (i j : Nat) (c : Cell),
    getCell (setCell r i c) j = if j = i then c else getCell r j := by
  intro r
  induction r with
  | nil =>
    intro i
    induction i with
    | zero =>
      intro j c
      cases j <;> simp [setCell]
    | succ n ih =>
      intro j c
      cases j with
      | zero => simp [setCell]
      | succ m => simp [setCell, ih m c]
  | cons x rest ih =>
    intro i j c
    cases i with
    | zero => cases j <;> simp [setCell]
    | succ n =>
      cases j with
      | zero => simp [setCell]
      | succ m => simp [setCell, ih n m c]

lemma getCellVal0_updRow0_self : ∀ (rows : List Row) (i : Nat) (f : Row → Row) (col : Nat),
    i < rows.length →
    getCellVal0 (updRow0 rows i f) i col = getCell (f (rows.getD i [])) col := by
  intro rows
  induction rows with
  | nil => intro i f col h; exact absurd h (by simp)
  | cons r rest ih =>
    intro i f col h
    cases i with
    | zero => simp [updRow0, getCellVal0]
    | succ n =>
      have hn : n < rest.length := by simpa using h
      simpa [updRow0, getCellVal0] using ih n f col hn

lemma findRow0_lt_length : ∀ (rows : List Row) (id : Cell) (i : Nat),
    findRow0 rows id = some i → i < rows.length := by
  intro rows
  induction rows with
  | nil => intro id i h; simp [findRow0] at h
  | cons r rest ih =>
    intro id i h
    by_cases hm : headMatches r id
    · simp [findRow0, hm] at h
      simp only [List.length_cons]
      omega
    · simp [findRow0, hm] at h
      obtain ⟨j, hj, hji⟩ := h
      have := ih id j hj
      simp only [List.length_cons]
      omega

lemma findRow0_headMatches : ∀ (rows : List Row) (id : Cell) (i : Nat),
    findRow0 rows id = some i → headMatches (rows.getD i []) id = true := by
  intro rows
  induction rows with
  | nil => intro id i h; simp [findRow0] at h
  | cons r rest ih =>
    intro id i h
    by_cases hm : headMatches r id
    · simp [findRow0, hm] at h
      subst h
      simpa using hm
    · simp [findRow0, hm] at h
      obtain ⟨j, hj, hji⟩ := h
      subst hji
      simpa using ih id j hj

lemma findRow0_updRow0 : ∀ (rows : List Row) (id : Cell) (i : Nat) (f : Row → Row),
    findRow0 rows id = some i →
    headMatches (f (rows.getD i [])) id = true →
    findRow0 (updRow0 rows i f) id = some i := by
  intro rows
  induction rows with
  | nil => intro id i f h _; simp [findRow0] at h
  | cons r rest ih =>
    intro id i f h hf
    by_cases hm : headMatches r id
    · simp [findRow0, hm] at h
      subst h
      simp only [List.getD_cons_zero] at hf
      simp [updRow0, findRow0, hf]
    · simp [findRow0, hm] at h
      obtain ⟨j, hj, hji⟩ := h
      subst hji
      simp only [List.getD_cons_succ] at hf
      simp [updRow0, findRow0, hm, ih id j f hj hf]

lemma headMatches_setCell_succ {r : Row} {id : Cell} (n : Nat) (c : Cell)
    (h : headMatches r id = true) : headMatches (setCell r (n + 1) c) id = true := by
  cases r with
  | nil => simp [headMatches] at h
  | cons x rest => simpa [setCell, headMatches] using h

lemma headMatches_followupWrite {r : Row} {id : Cell} (cnt : Int) (nxt : DateStr)
    (h : headMatches r id = true) : headMatches (followupWrite cnt nxt r) id = true := by
  unfold followupWrite
  exact headMatches_setCell_succ 3 _ (headMatches_setCell_succ 6 _ (headMatches_setCell_succ 5 _ h))

@[simp]
lemma sheetOf_setSheet_self (s : Store) (lang : String) (rows : List Row) :
    sheetOf (setSheet s lang rows) lang = rows := by
  by_cases h : lang = "en" <;> simp [sheetOf, setSheet, h]

@[simp]
lemma setSheet_activity (s : Store) (lang : String) (rows : List Row) :
    (setSheet s lang rows).activity = s.activity := by
  by_cases h : lang = "en" <;> simp [setSheet, h]

lemma setSheet_en_fr (s : Store) (rows : List Row) : (setSheet s "en" rows).fr = s.fr := by
  simp [setSheet]

lemma sendCount_append_nonsend {ev : Event} (evs : List Event)
    (h : isSendEvent ev = false) : sendCount (evs ++ [ev]) = sendCount evs := by
  simp [sendCount, List.filter_append, h]

lemma activityOnlySkips_refl (a : List LogEntry) : activityOnlySkips a a = true := by
  simp only [activityOnlySkips, List.all_eq_true]
  intro e he
  simp [entryOldOrSkip, he]

lemma activityOnlySkips_trans {a b c : List LogEntry}
    (h1 : activityOnlySkips a b = true) (h2 : activityOnlySkips b c = true) :
    activityOnlySkips a c = true := by
  simp only [activityOnlySkips, List.all_eq_true, entryOldOrSkip, Bool.or_eq_true,
    decide_eq_true_eq] at *
  intro e he
  rcases h2 e he with hmem | hact
  · exact h1 e hmem
  · exact Or.inr hact

lemma activityOnlySkips_append_skip {a b : List LogEntry} {e : LogEntry}
    (h : activityOnlySkips a b = true) (hs : e.action = "followup_skipped") :
    activityOnlySkips a (b ++ [e]) = true := by
  simp only [activityOnlySkips, List.all_eq_true, entryOldOrSkip, Bool.or_eq_true,
    decide_eq_true_eq, List.mem_append, List.mem_singleton] at *
  intro x hx
  rcases hx with hx | hx
  · exact h x hx
  · subst hx
    exact Or.inr hs

lemma dryFrame_refl (st : St) : dryFrame st st :=
  ⟨rfl, rfl, rfl, activityOnlySkips_refl _⟩

lemma dryFrame_trans {st st1 st2 : St} (h1 : dryFrame st st1) (h2 : dryFrame st1 st2) :
    dryFrame st st2 := by
  obtain ⟨a1, b1, c1, d1⟩ := h1
  obtain ⟨a2, b2, c2, d2⟩ := h2
  exact ⟨a2.trans a1, b2.trans b1, c2.trans c1, activityOnlySkips_trans d1 d2⟩

lemma log_activity_ok {env : Env} {st : St} {appId : Cell} {email action result details : String}
    (h : env.storeExn (.append (mkLogEntry env appId email action result details)) = none) :
    log_activity env st appId email action result details =
      .ok () { store := { st.store with
                 activity := st.store.activity ++ [mkLogEntry env appId email action result details] }
               events := st.events ++ [.appendLog (mkLogEntry env appId email action result details)] } := by
  simp [log_activity, recordEvent, h]

lemma log_activity_state_en (env : Env) (st : St) (appId : Cell)
    (email action result details : String) :
    ((log_activity env st appId email action result details).state).store.en = st.store.en := by
  simp only [log_activity]
  split <;> simp

lemma log_activity_state_fr (env : Env) (st : St) (appId : Cell)
    (email action result details : String) :
    ((log_activity env st appId email action result details).state).store.fr = st.store.fr := by
  simp only [log_activity]
  split <;> simp

lemma log_activity_state_events (env : Env) (st : St) (appId : Cell)
    (email action result details : String) :
    ((log_activity env st appId email action result details).state).events =
      st.events ++ [.appendLog (mkLogEntry env appId email action result details)] := by
  simp only [log_activity]
  split <;> simp

lemma log_activity_skip_dryFrame (env : Env) (st : St) (appId : Cell)
    (email details : String) :
    dryFrame st ((log_activity env st appId email "followup_skipped" "failed" details).state) := by
  refine ⟨log_activity_state_en .., log_activity_state_fr .., ?_, ?_⟩
  · rw [log_activity_state_events]
    exact sendCount_append_nonsend _ rfl
  · simp only [log_activity]
    split
    · simpa using activityOnlySkips_refl _
    · simpa using activityOnlySkips_append_skip (activityOnlySkips_refl _) rfl

lemma skip_with_log_dryFrame (env : Env) (st : St) (app : App) (d r : String) :
    dryFrame st ((skip_with_log env st app d r).state) := by
  unfold skip_with_log
  have h := log_activity_skip_dryFrame env st app.id app.email.text d
  cases hl : log_activity env st app.id app.email.text "followup_skipped" "failed" d with
  | err e st1 => rw [hl] at h; simpa using h
  | ok u st1 => rw [hl] at h; simpa using h

lemma upd_followup_state_fr_en (env : Env) (st : St) (appId : Cell) (n : Int) :
    ((update_application_followup env st appId "en" n).state).store.fr = st.store.fr := by
  simp only [update_application_followup]
  split
  · simp
  · split
    · simp
    · simp [setSheet_en_fr]

lemma upd_status_state_fr_en (env : Env) (st : St) (appId : Cell) (s : String) :
    ((update_application_status env st appId "en" s).state).store.fr = st.store.fr := by
  simp only [update_application_status]
  split
  · simp
  · split
    · simp
    · simp [setSheet_en_fr]

lemma send_and_update_state_fr_en (env : Env) (app : App) (subj att : String) (st : St) :
    ((send_and_update env "en" app subj att st).state).store.fr = st.store.fr := by
  simp only [send_and_update]
  split
  · simp
  · rename_i msgId hsend
    split
    · rename_i e st2 hupd
      have h := upd_followup_state_fr_en env
        (recordEvent st (.send app.email.text subj app.body.text att)) app.id (app.followups + 1)
      rw [hupd] at h
      simpa using h
    · rename_i u st2 hupd
      have h2fr : st2.store.fr = st.store.fr := by
        have h := upd_followup_state_fr_en env
          (recordEvent st (.send app.email.text subj app.body.text att)) app.id (app.followups + 1)
        rw [hupd] at h
        simpa using h
      split
      · rename_i e st3 hlog
        have h := log_activity_state_fr env st2 app.id app.email.text "followup_sent" "success"
          ("Follow-up #" ++ toString (app.followups + 1) ++ " sent")
        rw [hlog] at h
        simpa [h2fr] using h
      · rename_i u2 st3 hlog
        have h3fr : st3.store.fr = st.store.fr := by
          have h := log_activity_state_fr env st2 app.id app.email.text "followup_sent" "success"
            ("Follow-up #" ++ toString (app.followups + 1) ++ " sent")
          rw [hlog] at h
          simpa [h2fr] using h
        split
        · simpa using h3fr
        · rename_i mid
          split
          · simpa [recordEvent] using h3fr
          · rename_i reason hb
            split
            · rename_i e st5 hst
              have h := upd_status_state_fr_en env (recordEvent st3 (.bounceCheck mid))
                app.id "Bounced"
              rw [hst] at h
              simpa [h3fr] using h
            · rename_i u4 st5 hst
              have h5fr : st5.store.fr = st.store.fr := by
                have h := upd_status_state_fr_en env (recordEvent st3 (.bounceCheck mid))
                  app.id "Bounced"
                rw [hst] at h
                simpa [h3fr] using h
              split
              · rename_i e st6 hlog2
                have h := log_activity_state_fr env st5 app.id app.email.text "bounce_detected"
                  "bounced" reason
                rw [hlog2] at h
                simpa [h5fr] using h
              · rename_i u5 st6 hlog2
                have h := log_activity_state_fr env st5 app.id app.email.text "bounce_detected"
                  "bounced" reason
                rw [hlog2] at h
                simpa [h5fr] using h

lemma process_single_state_fr_en (env : Env) (dryRun : Bool) (app : App) (st : St) :
    ((process_single_followup env "en" dryRun app st).state).store.fr = st.store.fr := by
  simp only [process_single_followup]
  split
  · exact (skip_with_log_dryFrame env st app "Invalid email address" "Invalid email").2.1
  · split
    · exact (skip_with_log_dryFrame env st app "Missing email body" "Missing body").2.1
    · split
      · exact (skip_with_log_dryFrame env st app "Missing CV filename" "Missing CV").2.1
      · split
        · exact (skip_with_log_dryFrame env st app _ _).2.1
        · rename_i att hatt
          split
          · simp
          · split
            · rename_i u st1 heq
              have h := send_and_update_state_fr_en env app (subjectOf app) att st
              rw [heq] at h
              simpa using h
            · rename_i e st1 heq
              have h1fr : st1.store.fr = st.store.fr := by
                have h := send_and_update_state_fr_en env app (subjectOf app) att st
                rw [heq] at h
                simpa using h
              split
              · rename_i e2 st2 heq2
                have h := log_activity_state_fr env st1 app.id app.email.text "followup_failed"
                  "failed" e.msg
                rw [heq2] at h
                simpa [h1fr] using h
              · rename_i u2 st2 heq2
                have h := log_activity_state_fr env st1 app.id app.email.text "followup_failed"
                  "failed" e.msg
                rw [heq2] at h
                simpa [h1fr] using h

lemma process_due_apps_state_fr_en (env : Env) (dryRun : Bool) :
    ∀ (apps : List App) (stats : Stats) (st : St),
    ((process_due_apps env "en" dryRun apps stats st).state).store.fr = st.store.fr := by
  intro apps
  induction apps with
  | nil => intro stats st; simp [process_due_apps]
  | cons a rest ih =>
    intro stats st
    simp only [process_due_apps]
    cases hs : process_single_followup env "en" dryRun a st with
    | err e st1 =>
      have h := process_single_state_fr_en env dryRun a st
      rw [hs] at h
      simpa using h
    | ok r st1 =>
      have h1fr : st1.store.fr = st.store.fr := by
        have h := process_single_state_fr_en env dryRun a st
        rw [hs] at h
        simpa using h
      rw [← h1fr]
      exact ih (bumpStats stats a r) st1

lemma get_apps_state_store (env : Env) (lang : String) (st : St) :
    ((get_applications_for_followup env lang st).state).store = st.store := by
  simp only [get_applications_for_followup]
  split
  · simp
  · split <;> simp

lemma process_single_dry_dryFrame (env : Env) (lang : String) (app : App) (st : St) :
    dryFrame st ((process_single_followup env lang true app st).state) := by
  simp only [process_single_followup]
  split
  · exact skip_with_log_dryFrame env st app "Invalid email address" "Invalid email"
  · split
    · exact skip_with_log_dryFrame env st app "Missing email body" "Missing body"
    · split
      · exact skip_with_log_dryFrame env st app "Missing CV filename" "Missing CV"
      · split
        · exact skip_with_log_dryFrame env st app _ _
        · split
          · exact dryFrame_refl st
          · rename_i hfalse
            exact absurd trivial hfalse

lemma get_apps_events (env : Env) (lang : String) (st : St) :
    ((get_applications_for_followup env lang st).state).events =
      st.events ++ [Event.listCand lang] := by
  simp only [get_applications_for_followup]
  split
  · simp
  · split <;> simp

lemma get_apps_dryFrame (env : Env) (lang : String) (st : St) :
    dryFrame st ((get_applications_for_followup env lang st).state) := by
  have hstore := get_apps_state_store env lang st
  refine ⟨by rw [hstore], by rw [hstore], ?_, by rw [hstore]; exact activityOnlySkips_refl _⟩
  rw [get_apps_events]
  exact sendCount_append_nonsend _ rfl

lemma process_due_apps_dry_dryFrame (env : Env) (lang : String) :
    ∀ (apps : List App) (stats : Stats) (st : St),
    dryFrame st ((process_due_apps env lang true apps stats st).state) := by
  intro apps
  induction apps with
  | nil => intro stats st; exact dryFrame_refl st
  | cons a rest ih =>
    intro stats st
    simp only [process_due_apps]
    split
    · rename_i e st1 heq
      have h := process_single_dry_dryFrame env lang a st
      rw [heq] at h
      simpa using h
    · rename_i r st1 heq
      have h1 : dryFrame st st1 := by
        have h := process_single_dry_dryFrame env lang a st
        rw [heq] at h
        simpa using h
      exact dryFrame_trans h1 (ih (bumpStats stats a r) st1)

lemma process_partition_dry_dryFrame (env : Env) (lang : String) (stats : Stats) (st : St) :
    dryFrame st ((process_partition env true lang stats st).state) := by
  simp only [process_partition]
  split
  · rename_i e st1 heq
    have h := get_apps_dryFrame env lang st
    rw [heq] at h
    simpa using h
  · rename_i apps st1 heq
    have h1 : dryFrame st st1 := by
      have h := get_apps_dryFrame env lang st
      rw [heq] at h
      simpa using h
    exact dryFrame_trans h1 (process_due_apps_dry_dryFrame env lang _ stats st1)

lemma process_languages_dry_dryFrame (env : Env) :
    ∀ (langs : List String) (stats : Stats) (st : St),
    dryFrame st ((process_languages env true langs stats st).state) := by
  intro langs
  induction langs with
  | nil => intro stats st; exact dryFrame_refl st
  | cons l ls ih =>
    intro stats st
    simp only [process_languages]
    split
    · rename_i e st1 heq
      have h := process_partition_dry_dryFrame env l stats st
      rw [heq] at h
      simpa using h
    · rename_i stats1 st1 heq
      have h1 : dryFrame st st1 := by
        have h := process_partition_dry_dryFrame env l stats st
        rw [heq] at h
        simpa using h
      exact dryFrame_trans h1 (ih stats1 st1)

lemma skip_with_log_ok {env : Env} (happ : ∀ e, env.storeExn (.append e) = none)
    (st : St) (app : App) (d r : String) :
    ∃ st1, skip_with_log env st app d r = .ok (.skipped r) st1 := by
  unfold skip_with_log
  rw [log_activity_ok (happ _)]
  exact ⟨_, rfl⟩

lemma process_single_total {env : Env} (lang : String) (dr : Bool)
    (happ : ∀ e, env.storeExn (.append e) = none) (app : App) (st : St) :
    ∃ r st1, process_single_followup env lang dr app st = .ok r st1 := by
  simp only [process_single_followup]
  split
  · obtain ⟨st1, h⟩ := skip_with_log_ok happ st app "Invalid email address" "Invalid email"
    exact ⟨_, st1, h⟩
  · split
    · obtain ⟨st1, h⟩ := skip_with_log_ok happ st app "Missing email body" "Missing body"
      exact ⟨_, st1, h⟩
    · split
      · obtain ⟨st1, h⟩ := skip_with_log_ok happ st app "Missing CV filename" "Missing CV"
        exact ⟨_, st1, h⟩
      · split
        · obtain ⟨st1, h⟩ := skip_with_log_ok happ st app _ _
          exact ⟨_, st1, h⟩
        · split
          · exact ⟨.sent, st, rfl⟩
          · split
            · exact ⟨.sent, _, rfl⟩
            · rename_i e st1 heq
              rw [log_activity_ok (happ _)]
              exact ⟨.failed e.msg, _, rfl⟩

lemma bumpStats_total (stats : Stats) (app : App) (r : SResult) :
    statsTotal (bumpStats stats app r) = statsTotal stats + 1 := by
  cases r <;> simp [bumpStats, statsTotal] <;> omega

lemma bumpStats_errors (stats : Stats) (app : App) (r : SResult)
    (h : stats.errors.length = stats.failed) :
    (bumpStats stats app r).errors.length = (bumpStats stats app r).failed := by
  cases r <;> simp [bumpStats, h]

lemma process_due_apps_total {env : Env} (lang : String) (dr : Bool)
    (happ : ∀ e, env.storeExn (.append e) = none) :
    ∀ (apps : List App) (stats : Stats) (st : St),
    ∃ stats1 st1,
        process_due_apps env lang dr apps stats st = .ok stats1 st1
      ∧ statsTotal stats1 = statsTotal stats + apps.length
      ∧ (stats.errors.length = stats.failed → stats1.errors.length = stats1.failed) := by
  intro apps
  induction apps with
  | nil =>
    intro stats st
    exact ⟨stats, st, rfl, by simp, fun h => h⟩
  | cons a rest ih =>
    intro stats st
    obtain ⟨r, st1, hr⟩ := process_single_total lang dr happ a st
    obtain ⟨stats1, st2, h1, h2, h3⟩ := ih (bumpStats stats a r) st1
    refine ⟨stats1, st2, ?_, ?_, ?_⟩
    · simp only [process_due_apps, hr]
      exact h1
    · rw [h2, bumpStats_total]
      simp only [List.length_cons]
      omega
    · intro h
      exact h3 (bumpStats_errors _ _ _ h)

lemma get_apps_ok {env : Env} {lang : String} {st : St} {apps : List App}
    (hl : env.storeExn (.list lang) = none)
    (hrows : applications_of_rows lang ((sheetOf st.store lang).drop 1) = .ok apps) :
    get_applications_for_followup env lang st = .ok apps (recordEvent st (.listCand lang)) := by
  simp only [get_applications_for_followup, recordEvent_store, hl, hrows]

lemma applications_of_rows_ok_prop :
    ∀ (lang : String) (rows : List Row) (apps : List App),
    applications_of_rows lang rows = .ok apps →
    apps.all (fun a => !statusExcluded a.status && cellTruthy a.next_followup_date) = true := by
  intro lang rows
  induction rows with
  | nil =>
    intro apps h
    simp only [applications_of_rows] at h
    cases h
    rfl
  | cons row rest ih =>
    intro apps h
    simp only [applications_of_rows] at h
    split at h
    · exact ih apps h
    · split at h
      · exact ih apps h
      · split at h
        · exact ih apps h
        · rename_i h8 hex htr
          split at h
          · cases h
          · split at h
            · cases h
            · rename_i f hf apps2 happs2
              cases h
              simp only [List.all_cons, Bool.and_eq_true]
              refine ⟨⟨?_, ?_⟩, ih apps2 happs2⟩
              · simpa using hex
              · simpa using htr

lemma sheetOf_set_activity (s : Store) (x : List LogEntry) (lang : String) :
    sheetOf { s with activity := x } lang = sheetOf s lang := by
  by_cases h : lang = "en" <;> simp [sheetOf, h]

lemma getCell_followupWrite_status (r : Row) (n : Int) (next : DateStr) :
    getCell (followupWrite n next r) 4 = .str "Follow-up Sent" := by
  simp [followupWrite, getCell_setCell]

lemma getCell_followupWrite_count (r : Row) (n : Int) (next : DateStr) :
    getCell (followupWrite n next r) 6 = .num n := by
  simp [followupWrite, getCell_setCell]

lemma getCell_followupWrite_date (r : Row) (n : Int) (next : DateStr) :
    getCell (followupWrite n next r) 7 = .date next := by
  simp [followupWrite, getCell_setCell]

lemma update_application_followup_ok {env : Env} {st : St} {appId : Cell} {lang : String}
    {n : Int} {i : Nat} {t off : Int}
    (hexn : env.storeExn (.updFollowup appId lang n) = none)
    (hfind : findRow0 (sheetOf st.store lang) appId = some i)
    (hprev : getCellVal0 (sheetOf st.store lang) i 7 = .date (.aware t off)) :
    update_application_followup env st appId lang n =
      .ok () { store := setSheet st.store lang
                 (updRow0 (sheetOf st.store lang) i
                   (followupWrite n (.aware (t + env.followupDays * 1440) off)))
               events := st.events ++ [.updFollowup appId lang n] } := by
  simp only [update_application_followup, recordEvent_store, recordEvent_events, hexn, hfind,
    hprev, cellDate, calculate_next_followup]

lemma update_application_status_ok {env : Env} {st : St} {appId : Cell} {lang status : String}
    {i : Nat}
    (hexn : env.storeExn (.updStatus appId lang status) = none)
    (hfind : findRow0 (sheetOf st.store lang) appId = some i) :
    update_application_status env st appId lang status =
      .ok () { store := setSheet st.store lang
                 (updRow0 (sheetOf st.store lang) i (fun r => setCell r 4 (.str status)))
               events := st.events ++ [.updStatus appId lang status] } := by
  simp only [update_application_status, recordEvent_store, recordEvent_events, hexn, hfind]

lemma updRow0_length : ∀ (rows : List Row) (i : Nat) (f : Row → Row),
    (updRow0 rows i f).length = rows.length := by
  intro rows
  induction rows with
  | nil => intro i f; rfl
  | cons r rest ih =>
    intro i f
    cases i with
    | zero => rfl
    | succ n => simp [updRow0, ih n f]

lemma process_single_success_run {env : Env} {st : St} {app : App} {lang att mid : String}
    {i : Nat} {t off : Int}
    (hstore : ∀ op, env.storeExn op = none)
    (h1 : app.email.text.isEmpty = false)
    (h2 : env.validEmail app.email.text = true)
    (h3 : cellTruthy app.body = true)
    (h4 : cellTruthy app.cv = true)
    (h5 : env.resolve lang app.cv.text = some att)
    (h6 : env.send app.email.text (subjectOf app) app.body.text att = .ok (some mid))
    (h7 : env.bounce mid = none)
    (hfind : findRow0 (sheetOf st.store lang) app.id = some i)
    (hprev : getCellVal0 (sheetOf st.store lang) i 7 = .date (.aware t off)) :
    process_single_followup env lang false app st =
      .ok .sent
        { store :=
            { setSheet st.store lang
                (updRow0 (sheetOf st.store lang) i
                  (followupWrite (app.followups + 1)
                    (.aware (t + env.followupDays * 1440) off))) with
              activity := st.store.activity ++
                [mkLogEntry env app.id app.email.text "followup_sent" "success"
                  ("Follow-up #" ++ toString (app.followups + 1) ++ " sent")] }
          events := st.events ++
            [.send app.email.text (subjectOf app) app.body.text att,
             .updFollowup app.id lang (app.followups + 1),
             .appendLog (mkLogEntry env app.id app.email.text "followup_sent" "success"
               ("Follow-up #" ++ toString (app.followups + 1) ++ " sent")),
             .bounceCheck mid] } := by
  have hupd := @update_application_followup_ok env
    (recordEvent st (.send app.email.text (subjectOf app) app.body.text att))
    app.id lang (app.followups + 1) _ _ _
    (hstore _) hfind hprev
  simp only [process_single_followup, h1, h2, h3, h4, h5, h6, h7, Bool.or_self,
    Bool.not_true, Bool.false_or, Bool.or_false, if_false, Bool.false_eq_true, if_true,
    send_and_update, hupd, log_activity_ok (hstore _), recordEvent_store, recordEvent_events,
    setSheet_activity, List.append_assoc, List.singleton_append, List.cons_append,
    List.nil_append]
  simp [recordEvent]

lemma process_single_bounce_run {env : Env} {st : St} {app : App} {lang att mid reason : String}
    {i : Nat} {t off : Int}
    (hstore : ∀ op, env.storeExn op = none)
    (h1 : app.email.text.isEmpty = false)
    (h2 : env.validEmail app.email.text = true)
    (h3 : cellTruthy app.body = true)
    (h4 : cellTruthy app.cv = true)
    (h5 : env.resolve lang app.cv.text = some att)
    (h6 : env.send app.email.text (subjectOf app) app.body.text att = .ok (some mid))
    (h7 : env.bounce mid = some reason)
    (hfind : findRow0 (sheetOf st.store lang) app.id = some i)
    (hprev : getCellVal0 (sheetOf st.store lang) i 7 = .date (.aware t off)) :
    process_single_followup env lang false app st =
      .ok .sent
        { store :=
            { setSheet
                { setSheet st.store lang
                    (updRow0 (sheetOf st.store lang) i
                      (followupWrite (app.followups + 1)
                        (.aware (t + env.followupDays * 1440) off))) with
                  activity := st.store.activity ++
                    [mkLogEntry env app.id app.email.text "followup_sent" "success"
                      ("Follow-up #" ++ toString (app.followups + 1) ++ " sent")] }
                lang
                (updRow0
                  (updRow0 (sheetOf st.store lang) i
                    (followupWrite (app.followups + 1)
                      (.aware (t + env.followupDays * 1440) off)))
                  i (fun r => setCell r 4 (.str "Bounced"))) with
              activity := st.store.activity ++
                [mkLogEntry env app.id app.email.text "followup_sent" "success"
                   ("Follow-up #" ++ toString (app.followups + 1) ++ " sent"),
                 mkLogEntry env app.id app.email.text "bounce_detected" "bounced" reason] }
          events := st.events ++
            [.send app.email.text (subjectOf app) app.body.text att,
             .updFollowup app.id lang (app.followups + 1),
             .appendLog (mkLogEntry env app.id app.email.text "followup_sent" "success"
               ("Follow-up #" ++ toString (app.followups + 1) ++ " sent")),
             .bounceCheck mid,
             .updStatus app.id lang "Bounced",
             .appendLog (mkLogEntry env app.id app.email.text "bounce_detected" "bounced" reason)] } := by
  have hupd := @update_application_followup_ok env
    (recordEvent st (.send app.email.text (subjectOf app) app.body.text att))
    app.id lang (app.followups + 1) _ _ _
    (hstore _) hfind hprev
  have hhead : headMatches ((sheetOf st.store lang).getD i []) app.id = true :=
    findRow0_headMatches _ _ _ hfind
  have hfind2 : findRow0
      (updRow0 (sheetOf st.store lang) i
        (followupWrite (app.followups + 1) (.aware (t + env.followupDays * 1440) off)))
      app.id = some i :=
    findRow0_updRow0 _ _ _ _ hfind (headMatches_followupWrite _ _ hhead)
  have hfind3 : findRow0
      (sheetOf (recordEvent
        { store :=
            { setSheet st.store lang
                (updRow0 (sheetOf st.store lang) i
                  (followupWrite (app.followups + 1)
                    (.aware (t + env.followupDays * 1440) off))) with
              activity := st.store.activity ++
                [mkLogEntry env app.id app.email.text "followup_sent" "success"
                  ("Follow-up #" ++ toString (app.followups + 1) ++ " sent")] }
          events := st.events ++
            [.send app.email.text (subjectOf app) app.body.text att,
             .updFollowup app.id lang (app.followups + 1),
             .appendLog (mkLogEntry env app.id app.email.text "followup_sent" "success"
               ("Follow-up #" ++ toString (app.followups + 1) ++ " sent"))] }
        (Event.bounceCheck mid)).store lang) app.id = some i := by
    simpa [recordEvent, sheetOf_set_activity] using hfind2
  have hupds := @update_application_status_ok env
    (recordEvent
        { store :=
            { setSheet st.store lang
                (updRow0 (sheetOf st.store lang) i
                  (followupWrite (app.followups + 1)
                    (.aware (t + env.followupDays * 1440) off))) with
              activity := st.store.activity ++
                [mkLogEntry env app.id app.email.text "followup_sent" "success"
                  ("Follow-up #" ++ toString (app.followups + 1) ++ " sent")] }
          events := st.events ++
            [.send app.email.text (subjectOf app) app.body.text att,
             .updFollowup app.id lang (app.followups + 1),
             .appendLog (mkLogEntry env app.id app.email.text "followup_sent" "success"
               ("Follow-up #" ++ toString (app.followups + 1) ++ " sent"))] }
        (Event.bounceCheck mid))
    app.id lang "Bounced" _
    (hstore _) hfind3
  simp only [process_single_followup, h1, h2, h3, h4, h5, h6, h7, Bool.or_self,
    Bool.not_true, Bool.false_or, Bool.or_false, if_false, Bool.false_eq_true, if_true,
    send_and_update, hupd, hupds, log_activity_ok (hstore _), recordEvent_store,
    recordEvent_events, setSheet_activity, sheetOf_set_activity, sheetOf_setSheet_self,
    List.append_assoc, List.singleton_append, List.cons_append, List.nil_append]

lemma send_email_attempt_validation (menv : MailEnv) (toAddr subject body : String)
    (att : Option String) (k : Nat)
    (hv : mailPreconditionViolated menv toAddr subject body att = true) :
    ∃ m, send_email_attempt menv toAddr subject body att k = .error (.validation m) := by
  unfold send_email_attempt
  by_cases ha : toAddr.isEmpty
  · simp [ha]
  · by_cases hs : (pyStrip subject).isEmpty
    · simp [ha, hs]
    · by_cases hb : (pyStrip body).isEmpty
      · simp [ha, hs, hb]
      · cases att with
        | none =>
          simp [mailPreconditionViolated, attachmentMissing, ha, hs, hb] at hv
        | some p =>
          simp only [mailPreconditionViolated, attachmentMissing, ha, hs, hb,
            Bool.false_or, Bool.or_false] at hv
          have hfalse : menv.attachExists p = false := by
            cases hcase : menv.attachExists p
            · rfl
            · rw [hcase] at hv
              simp at hv
          simp only [ha, hs, hb, hfalse, Bool.false_eq_true, if_false]
          exact ⟨_, rfl⟩

lemma send_email_attempt_net (menv : MailEnv) (toAddr subject body : String)
    (att : Option String) (k : Nat)
    (hok : mailPreconditionViolated menv toAddr subject body att = false) :
    send_email_attempt menv toAddr subject body att k = gmail_api_send menv k := by
  simp only [mailPreconditionViolated, Bool.or_eq_false_iff] at hok
  obtain ⟨⟨⟨ha, hs⟩, hb⟩, hatt⟩ := hok
  unfold send_email_attempt
  cases att with
  | none => simp [ha, hs, hb]
  | some p =>
    have htrue : menv.attachExists p = true := by
      cases hcase : menv.attachExists p
      · rw [attachmentMissing, hcase] at hatt
        simp at hatt
      · rfl
    simp [ha, hs, hb, htrue]

lemma send_email_retry_succ (menv : MailEnv) (toAddr subject body : String)
    (att : Option String) (fuel k : Nat) :
    send_email_retry menv toAddr subject body att (fuel + 1) k =
      match send_email_attempt menv toAddr subject body att k with
      | .ok id => (.ok id, 1)
      | .error (.validation m) => (.error (.validation m), 1)
      | .error (.transient m) =>
        if fuel = 0 then (.error (.transient m), 1)
        else ((send_email_retry menv toAddr subject body att fuel (k + 1)).1,
              (send_email_retry menv toAddr subject body att fuel (k + 1)).2 + 1) := rfl

lemma send_email_retry_transient (menv : MailEnv) (toAddr subject body : String)
    (att : Option String)
    (hok : mailPreconditionViolated menv toAddr subject body att = false)
    (hnet : ∀ k, ∃ m, menv.netSend k = .error m) :
    ∀ (fuel k : Nat), 0 < fuel →
    isTransientFailure (send_email_retry menv toAddr subject body att fuel k) fuel = true := by
  intro fuel
  induction fuel with
  | zero => intro k h; exact absurd h (by simp)
  | succ f ih =>
    intro k _
    obtain ⟨m, hm⟩ := hnet k
    have hat : send_email_attempt menv toAddr subject body att k = .error (.transient m) := by
      rw [send_email_attempt_net menv toAddr subject body att k hok]
      unfold gmail_api_send
      rw [hm]
    rw [send_email_retry_succ, hat]
    dsimp only
    by_cases hf0 : f = 0
    · subst hf0
      rfl
    · rw [if_neg hf0]
      have hrec := ih (k + 1) (Nat.pos_of_ne_zero hf0)
      rcases hR : send_email_retry menv toAddr subject body att f (k + 1) with ⟨r1, n⟩
      rw [hR] at hrec
      cases r1 with
      | ok v => simp [isTransientFailure] at hrec
      | error e =>
        cases e with
        | validation m2 => simp [isTransientFailure] at hrec
        | transient m2 =>
          simp only [isTransientFailure, beq_iff_eq] at hrec
          simp [isTransientFailure, hrec]

/-!  Claim theorems. -/

/-- C5: `is_followup_due` returns false for every unparseable or absent
    `next_followup_date`, treats a parsed value lacking a timezone as being
    in the configured reference timezone, and returns true exactly when now
    is at or past the parsed instant.  It is a total function of the parse
    classification, so it never raises. -/
theorem is_followup_due_spec (env : Env) (d : DateStr) :
    is_followup_due env d =
      (match dateAbsInCfgTz env d with
       | none => false
       | some a => decide (env.nowAbs ≥ a)) := by
  cases d <;> rfl

/-- C8: for every parseable base date and every day count, the computed next
    follow-up timestamp differs from the base by exactly `days` days of
    wall-clock time, and an already timezone-aware base keeps its timezone. -/
theorem calculate_next_followup_shift (env : Env) (days t off : Int) :
    dateWall (calculate_next_followup env (.naive t) days) = some (t + days * 1440)
  ∧ calculate_next_followup env (.aware t off) days = .aware (t + days * 1440) off
  ∧ (t + days * 1440) - t = days * 1440 := by
  refine ⟨rfl, rfl, by omega⟩

/-- C10: for every language selector outside en / fr / both,
    `process_followups` raises `ValueError` with the original state intact:
    no store read, no store write and no send has been performed. -/
theorem process_followups_bad_language (env : Env) (language : String)
    (dryRun : Bool) (st : St)
    (h : (language = "en" || language = "fr" || language = "both") = false) :
    process_followups env language dryRun st =
      .err (.valueError "language must be en, fr, or both") st := by
  simp only [process_followups, h, Bool.false_eq_true, if_false]

theorem process_followups_bad_language_witness :
    process_followups envW "de" false stW =
      .err (.valueError "language must be en, fr, or both") stW :=
  process_followups_bad_language envW "de" false stW (by decide)

/-- C6: the due-candidate query never returns a record whose status is in
    the terminal-exclusion set Bounced / Failed / Frozen, and never returns
    a record with an empty next-followup marker. -/
theorem get_applications_excludes_terminal (env : Env) (lang : String) (st : St) :
    appsOkCheck (get_applications_for_followup env lang st) = true := by
  simp only [get_applications_for_followup]
  split
  · rfl
  · split
    · rfl
    · rename_i apps h
      simpa [appsOkCheck] using applications_of_rows_ok_prop lang _ apps h

/-- C2 (counterexample): a dry run is not mutation-free as claimed — a due
    record with an invalid email address makes the dry run append a
    validation-skip entry to the activity log, so the store state after the
    run differs from the store state before it. -/
theorem dry_run_mutates_activity_counterexample :
    ¬ ((process_followups envW "en" true stWBad).state.store.activity
        = stWBad.store.activity) := by decide

/-- C2 (amended): a dry run never updates an application row and never
    invokes the Sender; the only store mutation it can perform is appending
    validation-skip entries to the activity log (the skip paths log before
    the dry-run check). -/
theorem dry_run_amended (env : Env) (language : String) (st : St) :
    (process_followups env language true st).state.store.en = st.store.en
  ∧ (process_followups env language true st).state.store.fr = st.store.fr
  ∧ sendCount ((process_followups env language true st).state.events) = sendCount st.events
  ∧ activityOnlySkips st.store.activity
      ((process_followups env language true st).state.store.activity) = true := by
  have h : dryFrame st ((process_followups env language true st).state) := by
    simp only [process_followups]
    split
    · exact process_languages_dry_dryFrame env _ _ st
    · exact dryFrame_refl st
  exact ⟨h.1, h.2.1, h.2.2.1, h.2.2.2⟩

lemma skip_with_log_reason {env : Env} (happ : ∀ e, env.storeExn (.append e) = none)
    (st : St) (app : App) (d r : String) :
    resSkipReason (skip_with_log env st app d r) = some r := by
  obtain ⟨st1, h⟩ := skip_with_log_ok happ st app d r
  rw [h]
  rfl

/-- C4: the single-record handler validates in the fixed order email format,
    then non-empty body, then non-empty attachment reference, then
    attachment resolution, short-circuiting on the first failure with the
    corresponding skip reason; in every skip case the Sender is never
    invoked (the trace gains no send event). -/
theorem single_handler_validation_order (env : Env) (lang : String) (dr : Bool)
    (app : App) (st : St)
    (happ : ∀ e, env.storeExn (.append e) = none) :
    ((app.email.text.isEmpty || !env.validEmail app.email.text) = true →
       resSkipReason (process_single_followup env lang dr app st) = some "Invalid email"
     ∧ sendCount ((process_single_followup env lang dr app st).state.events)
         = sendCount st.events)
  ∧ ((app.email.text.isEmpty || !env.validEmail app.email.text) = false →
     cellTruthy app.body = false →
       resSkipReason (process_single_followup env lang dr app st) = some "Missing body"
     ∧ sendCount ((process_single_followup env lang dr app st).state.events)
         = sendCount st.events)
  ∧ ((app.email.text.isEmpty || !env.validEmail app.email.text) = false →
     cellTruthy app.body = true → cellTruthy app.cv = false →
       resSkipReason (process_single_followup env lang dr app st) = some "Missing CV"
     ∧ sendCount ((process_single_followup env lang dr app st).state.events)
         = sendCount st.events)
  ∧ ((app.email.text.isEmpty || !env.validEmail app.email.text) = false →
     cellTruthy app.body = true → cellTruthy app.cv = true →
     env.resolve lang app.cv.text = none →
       resSkipReason (process_single_followup env lang dr app st)
         = some ("Attachment not found: " ++ app.cv.text)
     ∧ sendCount ((process_single_followup env lang dr app st).state.events)
         = sendCount st.events) := by
  refine ⟨?_, ?_, ?_, ?_⟩
  · intro hc
    constructor
    · simp only [process_single_followup, hc, if_true]
      exact skip_with_log_reason happ st app "Invalid email address" "Invalid email"
    · simp only [process_single_followup, hc, if_true]
      exact (skip_with_log_dryFrame env st app "Invalid email address" "Invalid email").2.2.1
  · intro hc hb
    constructor
    · simp only [process_single_followup, hc, hb, Bool.false_eq_true, if_false,
        Bool.not_false, if_true]
      exact skip_with_log_reason happ st app "Missing email body" "Missing body"
    · simp only [process_single_followup, hc, hb, Bool.false_eq_true, if_false,
        Bool.not_false, if_true]
      exact (skip_with_log_dryFrame env st app "Missing email body" "Missing body").2.2.1
  · intro hc hb hcv
    constructor
    · simp only [process_single_followup, hc, hb, hcv, Bool.false_eq_true, if_false,
        Bool.not_true, Bool.not_false, if_true]
      exact skip_with_log_reason happ st app "Missing CV filename" "Missing CV"
    · simp only [process_single_followup, hc, hb, hcv, Bool.false_eq_true, if_false,
        Bool.not_true, Bool.not_false, if_true]
      exact (skip_with_log_dryFrame env st app "Missing CV filename" "Missing CV").2.2.1
  · intro hc hb hcv hres
    constructor
    · simp only [process_single_followup, hc, hb, hcv, hres, Bool.false_eq_true, if_false,
        Bool.not_true, Bool.not_false, if_true]
      exact skip_with_log_reason happ st app _ _
    · simp only [process_single_followup, hc, hb, hcv, hres, Bool.false_eq_true, if_false,
        Bool.not_true, Bool.not_false, if_true]
      exact (skip_with_log_dryFrame env st app _ _).2.2.1

theorem single_handler_validation_order_witness :
    resSkipReason (process_single_followup envW "en" false appNoAtt stW)
      = some ("Attachment not found: " ++ appNoAtt.cv.text)
  ∧ sendCount ((process_single_followup envW "en" false appNoAtt stW).state.events)
      = sendCount stW.events :=
  (single_handler_validation_order envW "en" false appNoAtt stW (fun _ => rfl)).2.2.2
    (by decide) (by decide) (by decide) (by decide)

/-- C9: a violation of the Sender's preconditions (empty recipient, blank
    subject, blank body, or a supplied attachment that does not exist) fails
    in exactly one invocation with a validation error and is never retried,
    while persistent non-validation failures are retried up to the
    configured maximum attempt count before surfacing.  The exponential
    backoff delays between attempts are wall-clock behaviour outside the
    model. -/
theorem mailer_retry_policy (menv : MailEnv) (maxTries : Nat)
    (toAddr subject body : String) (att : Option String) (hmax : 0 < maxTries) :
    (mailPreconditionViolated menv toAddr subject body att = true →
       isValidationFailure (send_email menv maxTries toAddr subject body att) = true)
  ∧ (mailPreconditionViolated menv toAddr subject body att = false →
     (∀ k, ∃ m, menv.netSend k = .error m) →
       isTransientFailure (send_email menv maxTries toAddr subject body att) maxTries
         = true) := by
  constructor
  · intro hv
    obtain ⟨m, hm⟩ := send_email_attempt_validation menv toAddr subject body att 0 hv
    obtain ⟨mt, hmt⟩ : ∃ mt, maxTries = mt + 1 := ⟨maxTries - 1, by omega⟩
    subst hmt
    unfold send_email
    rw [send_email_retry_succ, hm]
    rfl
  · intro hok hnet
    exact send_email_retry_transient menv toAddr subject body att hok hnet maxTries 0 hmax

theorem mailer_retry_policy_witness :
    isValidationFailure (send_email menvW 3 "" "Subject" "Body" none) = true
  ∧ isTransientFailure (send_email menvW 3 "a@b.com" "Subject" "Body"
      (some "/att/cv.pdf")) 3 = true :=
  ⟨(mailer_retry_policy menvW 3 "" "Subject" "Body" none (by decide)).1 (by decide),
   (mailer_retry_policy menvW 3 "a@b.com" "Subject" "Body" (some "/att/cv.pdf")
       (by decide)).2 (by decide) (fun _ => ⟨"503 backend error", rfl⟩)⟩

/-- C1: for a due record passing all validations whose non-dry-run send
    succeeds (and whose bounce check is clean), the handler reports it sent,
    writes followup count previous + 1, recomputes the next follow-up date
    from the previous stored next-followup cell (not from the clock) to a
    strictly later instant, writes the "Follow-up Sent" status in the same
    batch, and appends the success activity entry naming the new ordinal. -/
theorem followup_success_updates (env : Env) (lang : String) (app : App) (st : St)
    (att mid : String) (i : Nat) (t off : Int)
    (hstore : ∀ op, env.storeExn op = none)
    (h1 : app.email.text.isEmpty = false)
    (h2 : env.validEmail app.email.text = true)
    (h3 : cellTruthy app.body = true)
    (h4 : cellTruthy app.cv = true)
    (h5 : env.resolve lang app.cv.text = some att)
    (h6 : env.send app.email.text (subjectOf app) app.body.text att = .ok (some mid))
    (h7 : env.bounce mid = none)
    (hfind : findRow0 (sheetOf st.store lang) app.id = some i)
    (hprev : getCellVal0 (sheetOf st.store lang) i 7 = .date (.aware t off))
    (hdays : 0 < env.followupDays) :
    resIsSent (process_single_followup env lang false app st) = true
  ∧ getCellVal0
      (sheetOf ((process_single_followup env lang false app st).state).store lang) i 6
      = .num (app.followups + 1)
  ∧ getCellVal0
      (sheetOf ((process_single_followup env lang false app st).state).store lang) i 7
      = .date (.aware (t + env.followupDays * 1440) off)
  ∧ getCellVal0
      (sheetOf ((process_single_followup env lang false app st).state).store lang) i 4
      = .str "Follow-up Sent"
  ∧ t - off < (t + env.followupDays * 1440) - off
  ∧ ((process_single_followup env lang false app st).state).store.activity
      = st.store.activity ++
        [mkLogEntry env app.id app.email.text "followup_sent" "success"
          ("Follow-up #" ++ toString (app.followups + 1) ++ " sent")] := by
  have hrun := process_single_success_run hstore h1 h2 h3 h4 h5 h6 h7 hfind hprev
  have hlen : i < (sheetOf st.store lang).length := findRow0_lt_length _ _ _ hfind
  rw [hrun]
  refine ⟨rfl, ?_, ?_, ?_, by omega, ?_⟩
  · simp [sheetOf_set_activity, sheetOf_setSheet_self,
      getCellVal0_updRow0_self _ _ _ _ hlen, getCell_followupWrite_count]
  · simp [sheetOf_set_activity, sheetOf_setSheet_self,
      getCellVal0_updRow0_self _ _ _ _ hlen, getCell_followupWrite_date]
  · simp [sheetOf_set_activity, sheetOf_setSheet_self,
      getCellVal0_updRow0_self _ _ _ _ hlen, getCell_followupWrite_status]
  · rfl

theorem followup_success_updates_witness :
    resIsSent (process_single_followup envW "en" false appGood stW) = true
  ∧ getCellVal0
      (sheetOf ((process_single_followup envW "en" false appGood stW).state).store "en") 1 6
      = .num (appGood.followups + 1)
  ∧ getCellVal0
      (sheetOf ((process_single_followup envW "en" false appGood stW).state).store "en") 1 7
      = .date (.aware (500000 + envW.followupDays * 1440) 60)
  ∧ getCellVal0
      (sheetOf ((process_single_followup envW "en" false appGood stW).state).store "en") 1 4
      = .str "Follow-up Sent"
  ∧ (500000 : Int) - 60 < (500000 + envW.followupDays * 1440) - 60
  ∧ ((process_single_followup envW "en" false appGood stW).state).store.activity
      = stW.store.activity ++
        [mkLogEntry envW appGood.id appGood.email.text "followup_sent" "success"
          ("Follow-up #" ++ toString (appGood.followups + 1) ++ " sent")] :=
  followup_success_updates envW "en" appGood stW "/att/cv.pdf" "m1" 1 500000 60
    (fun _ => rfl) (by decide) (by decide) (by decide) (by decide) (by decide) rfl
    (by decide) (by decide) (by decide) (by decide)

/-- C7: when the follow-up send succeeds and the subsequent best-effort
    bounce check reports a bounce, the record's status at the end of the
    handler is "Bounced" (the bounce write lands after and overrides the
    just-written "Follow-up Sent"), and a bounce activity entry is appended
    after the success entry. -/
theorem bounce_overrides_followup_status (env : Env) (lang : String) (app : App)
    (st : St) (att mid reason : String) (i : Nat) (t off : Int)
    (hstore : ∀ op, env.storeExn op = none)
    (h1 : app.email.text.isEmpty = false)
    (h2 : env.validEmail app.email.text = true)
    (h3 : cellTruthy app.body = true)
    (h4 : cellTruthy app.cv = true)
    (h5 : env.resolve lang app.cv.text = some att)
    (h6 : env.send app.email.text (subjectOf app) app.body.text att = .ok (some mid))
    (h7 : env.bounce mid = some reason)
    (hfind : findRow0 (sheetOf st.store lang) app.id = some i)
    (hprev : getCellVal0 (sheetOf st.store lang) i 7 = .date (.aware t off)) :
    resIsSent (process_single_followup env lang false app st) = true
  ∧ getCellVal0
      (sheetOf ((process_single_followup env lang false app st).state).store lang) i 4
      = .str "Bounced"
  ∧ ((process_single_followup env lang false app st).state).store.activity
      = st.store.activity ++
        [mkLogEntry env app.id app.email.text "followup_sent" "success"
           ("Follow-up #" ++ toString (app.followups + 1) ++ " sent"),
         mkLogEntry env app.id app.email.text "bounce_detected" "bounced" reason] := by
  have hrun := process_single_bounce_run hstore h1 h2 h3 h4 h5 h6 h7 hfind hprev
  have hlen : i < (sheetOf st.store lang).length := findRow0_lt_length _ _ _ hfind
  have hlen2 : i <
      (updRow0 (sheetOf st.store lang) i
        (followupWrite (app.followups + 1)
          (.aware (t + env.followupDays * 1440) off))).length := by
    rw [updRow0_length]
    exact hlen
  rw [hrun]
  refine ⟨rfl, ?_, rfl⟩
  simp [sheetOf_set_activity, sheetOf_setSheet_self,
    getCellVal0_updRow0_self _ _ _ _ hlen2, getCell_setCell]

theorem bounce_overrides_followup_status_witness :
    resIsSent (process_single_followup envWBounce "en" false appGood stW) = true
  ∧ getCellVal0
      (sheetOf ((process_single_followup envWBounce "en" false appGood stW).state).store "en") 1 4
      = .str "Bounced"
  ∧ ((process_single_followup envWBounce "en" false appGood stW).state).store.activity
      = stW.store.activity ++
        [mkLogEntry envWBounce appGood.id appGood.email.text "followup_sent" "success"
           ("Follow-up #" ++ toString (appGood.followups + 1) ++ " sent"),
         mkLogEntry envWBounce appGood.id appGood.email.text "bounce_detected" "bounced"
           "address unavailable"] :=
  bounce_overrides_followup_status envWBounce "en" appGood stW "/att/cv.pdf" "m1"
    "address unavailable" 1 500000 60
    (fun _ => rfl) (by decide) (by decide) (by decide) (by decide) (by decide) rfl rfl
    (by decide) (by decide)

/-- C3 (counterexample): a failing candidate-listing call for the EN
    partition of a "both" run aborts the whole run after the single listing
    attempt — the FR partition is never processed and no statistics object
    is returned, contradicting the claim that only that partition's
    processing is aborted. -/
theorem listing_failure_aborts_run_counterexample :
    process_followups envWListFail "both" false stWBoth =
      .err (.apiError "listing unreachable")
        { store := stWBoth.store, events := [.listCand "en"] } := by decide

/-- C3 (amended): errors raised inside the guarded send/update sequence are
    caught per record and folded into the statistics, but a store failure
    while appending a skip or failure log entry propagates, and a failing
    candidate-listing call aborts the entire remaining run (later partitions
    included) with no statistics object.  When every listing succeeds and
    activity-log appends never fail, a "both" run returns a complete
    statistics object in which every due candidate yields exactly one of
    sent, skipped or failed, with one error entry per failure. -/
theorem run_complete_stats_amended (env : Env) (dryRun : Bool) (st : St)
    (appsE appsF : List App)
    (hlist : ∀ l, env.storeExn (.list l) = none)
    (happ : ∀ e, env.storeExn (.append e) = none)
    (hen : applications_of_rows "en" (st.store.en.drop 1) = .ok appsE)
    (hfr : applications_of_rows "fr" (st.store.fr.drop 1) = .ok appsF) :
    resStatsCheck (process_followups env "both" dryRun st)
      ((appsE.filter (fun a => is_followup_due env (cellDate a.next_followup_date))).length +
       (appsF.filter (fun a => is_followup_due env (cellDate a.next_followup_date))).length)
      = true := by
  have hg1 : get_applications_for_followup env "en" st
      = .ok appsE (recordEvent st (.listCand "en")) :=
    get_apps_ok (hlist "en") (by simpa [sheetOf] using hen)
  obtain ⟨stats1, st1, hp1, ht1, he1⟩ :=
    process_due_apps_total "en" dryRun happ
      (appsE.filter (fun a => is_followup_due env (cellDate a.next_followup_date)))
      { sent := 0, skipped := 0, failed := 0, errors := [] }
      (recordEvent st (.listCand "en"))
  have hfr1 : st1.store.fr = st.store.fr := by
    have h := process_due_apps_state_fr_en env dryRun
      (appsE.filter (fun a => is_followup_due env (cellDate a.next_followup_date)))
      { sent := 0, skipped := 0, failed := 0, errors := [] }
      (recordEvent st (.listCand "en"))
    rw [hp1] at h
    simpa using h
  have hg2 : get_applications_for_followup env "fr" st1
      = .ok appsF (recordEvent st1 (.listCand "fr")) := by
    refine get_apps_ok (hlist "fr") ?_
    have hsheet : sheetOf st1.store "fr" = st.store.fr := by
      simp [sheetOf, hfr1]
    rw [hsheet]
    exact hfr
  obtain ⟨stats2, st2, hp2, ht2, he2⟩ :=
    process_due_apps_total "fr" dryRun happ
      (appsF.filter (fun a => is_followup_due env (cellDate a.next_followup_date)))
      stats1 (recordEvent st1 (.listCand "fr"))
  have hrun : process_followups env "both" dryRun st = .ok stats2 st2 := by
    show process_languages env dryRun ["en", "fr"]
      { sent := 0, skipped := 0, failed := 0, errors := [] } st = .ok stats2 st2
    simp only [process_languages, process_partition, hg1, hp1, hg2, hp2]
  rw [hrun]
  simp only [resStatsCheck, Bool.and_eq_true, beq_iff_eq]
  constructor
  · rw [ht2, ht1]
    simp [statsTotal]
  · exact he2 (he1 rfl)

theorem run_complete_stats_amended_witness :
    resStatsCheck (process_followups envW "both" false stWBoth)
      (([appGood].filter
          (fun a => is_followup_due envW (cellDate a.next_followup_date))).length +
       ([appGoodFr].filter
          (fun a => is_followup_due envW (cellDate a.next_followup_date))).length)
      = true :=
  run_complete_stats_amended envW false stWBoth [appGood] [appGoodFr]
    (fun _ => rfl) (fun _ => rfl) (by decide) (by decide)

end JobFlow
